import Mathlib

/-!
# steps-gitlab-status: a shallow embedding of `main.go`

The step reports a build status to GitLab's commit-status API.  This file
embeds `getState`, `getDescription`, `sendStatus` and the retry loop of
`main` and proves the properties the specification states about them.

Conventions of the embedding:

* Go `string` values are modelled by Lean `String` (valid UTF-8 text).
* Go `error` values are modelled by their message; `nil` is `none`.
* The process environment, the network and the clock are explicit:
  the environment is a lookup function, every attempt's network behaviour
  is a `World`, and every effect is recorded as an `Event` of a trace.
* Parts of the Go libraries that are tables or that no property depends on
  (Unicode tables, `%v` of a float, `%q`, form encoding, the URL parser
  behind its control-character test) are fields of the parameter `GoLib`.
* The retry loop is the one of the package
  `github.com/bitrise-io/go-utils/retry` that `main.go` imports.
-/

namespace GitlabStatus

/-! ## Library layer: `float64` and `fmt` -/

/-- A `float64` value: a finite value is `(-1)^neg * mant * 2^exp`. -/
inductive Float64 where
  | finite (neg : Bool) (mant : Nat) (exp : Int)
  | inf (neg : Bool)
  | nan

/-- Go `error`: modelled by the text of `Error()`. -/
abbrev Error := String

/-- Go `http.Header`: a map from a canonical key to its values, as an
association list in order of insertion. -/
abbrev Header := List (String × List String)

/-- Go `http.Request`, as far as `sendStatus` fills it in. -/
structure Request where
  Method : String
  /-- The field `URL`, a parsed `*url.URL`, as `URL.String()` renders it. -/
  URL : String
  Header : Header
  Body : String
  deriving DecidableEq

/-- Library functions taken as parameters. -/
structure GoLib where
  /-- `unicode.ToTitle` on runes above `0x7F`. -/
  toTitle : Char → Char
  /-- `unicode.IsLetter` on runes above `0x7F`. -/
  isLetter : Char → Bool
  /-- `unicode.IsDigit` on runes above `0x7F`. -/
  isDigit : Char → Bool
  /-- `unicode.IsSpace` on runes above `0x7F`. -/
  isSpace : Char → Bool
  /-- The `%v` rendering of a `float64`. -/
  floatV : Float64 → String
  /-- `url.Values.Encode`. -/
  encode : List (String × List String) → String
  /-- The verb `%q` on a string (`strconv.Quote`). -/
  quote : String → String
  /-- `url.Parse` on a text whose part before `#` holds no control byte:
  the text of the `url.Error`, or the parsed URL as `http.NewRequest` keeps
  it (`removeEmptyPort` applied to the host), rendered by `URL.String()`. -/
  parseURL : String → Except Error String

/-- Nearest integer to `num / den`, ties to even (the rounding of `strconv`). -/
def roundHalfEven (num den : Nat) : Nat :=
  let q := num / den
  let r := num % den
  if den < 2 * r then q + 1
  else if 2 * r = den then (if q % 2 = 0 then q else q + 1)
  else q

/-- The magnitude `mant * 2^exp` in millionths, rounded to the nearest integer. -/
def scaled6 (mant : Nat) (exp : Int) : Nat :=
  if 0 ≤ exp then mant * 2 ^ exp.toNat * 10 ^ 6
  else roundHalfEven (mant * 10 ^ 6) (2 ^ (-exp).toNat)

/-- The decimal digit `n % 10` as a character. -/
def digitOf (n : Nat) : Char := Char.ofNat (48 + n % 10)

/-- The six decimal digits of `n % 10^6`, most significant first. -/
def frac6 (n : Nat) : List Char :=
  [digitOf (n / 100000), digitOf (n / 10000), digitOf (n / 1000),
   digitOf (n / 100), digitOf (n / 10), digitOf n]

/-- The verb `%f` on a `float64` (`strconv.AppendFloat(x, 'f', 6, 64)` as
printed by `fmt`): sign, integer digits, a point and six fractional digits;
the value is rounded to the nearest millionth, ties to even. -/
def formatF : Float64 → String
  | .nan => "NaN"
  | .inf false => "+Inf"
  | .inf true => "-Inf"
  | .finite neg mant exp =>
    let n := scaled6 mant exp
    (if neg then "-" else "") ++ toString (n / 10 ^ 6) ++ "." ++ String.mk (frac6 n)

/-- An operand of `fmt.Sprintf`. -/
inductive Arg where
  | str (s : String)
  | int (n : Int)
  | float64 (x : Float64)

/-- The Go type name of an operand, as `fmt` prints it in diagnostics. -/
def Arg.typeName : Arg → String
  | .str _ => "string"
  | .int _ => "int"
  | .float64 _ => "float64"

/-- The `%v` rendering of an operand. -/
def Arg.valueV (L : GoLib) : Arg → String
  | .str s => s
  | .int n => toString n
  | .float64 x => L.floatV x

/-- One directive `%verb` applied to one operand. -/
def printArg (L : GoLib) (verb : Char) (a : Arg) : List Char :=
  match a with
  | .str s =>
    if verb = 's' ∨ verb = 'v' then s.data
    else ("%!" ++ String.singleton verb ++ "(string=" ++ s ++ ")").data
  | .int n =>
    if verb = 'd' ∨ verb = 'v' then (toString n).data
    else ("%!" ++ String.singleton verb ++ "(int=" ++ toString n ++ ")").data
  | .float64 x =>
    if verb = 'f' then (formatF x).data
    else if verb = 'v' then (L.floatV x).data
    else ("%!" ++ String.singleton verb ++ "(float64=" ++ L.floatV x ++ ")").data

/-- The operands left over, as listed inside `%!(EXTRA ...)`. -/
def extraList (L : GoLib) : List Arg → List Char
  | [] => []
  | [a] => (a.typeName ++ "=" ++ a.valueV L).data
  | a :: b :: rest => (a.typeName ++ "=" ++ a.valueV L ++ ", ").data ++ extraList L (b :: rest)

/-- What `fmt` appends when operands are left over after the format. -/
def extraArgs (L : GoLib) (args : List Arg) : List Char :=
  match args with
  | [] => []
  | _ :: _ => "%!(EXTRA ".data ++ extraList L args ++ [')']

/-- The scanning loop of `fmt.Sprintf` over the format's characters.  It is
exact on formats whose directives are `%s`, `%d`, `%f`, `%v` and `%%`
without flags, width, precision or argument index, which covers every
format string of `main.go`. -/
def doPrintf (L : GoLib) : List Char → List Arg → List Char
  | [], args => extraArgs L args
  | c :: rest, args =>
    if c ≠ '%' then c :: doPrintf L rest args
    else
      match rest with
      | [] => "%!(NOVERB)".data ++ extraArgs L args
      | verb :: rest2 =>
        if verb = '%' then '%' :: doPrintf L rest2 args
        else
          match args with
          | [] => ("%!" ++ String.singleton verb ++ "(MISSING)").data ++ doPrintf L rest2 []
          | a :: more => printArg L verb a ++ doPrintf L rest2 more

/-- Go `fmt.Sprintf`. -/
def Sprintf (L : GoLib) (format : String) (args : List Arg) : String :=
  String.mk (doPrintf L format.data args)

/-! ## Library layer: `strings.Title` -/

/-- Go `strings.isSeparator`. -/
def isSeparator (L : GoLib) (r : Char) : Bool :=
  if r.toNat ≤ 0x7F then
    if '0'.toNat ≤ r.toNat ∧ r.toNat ≤ '9'.toNat then false
    else if 'a'.toNat ≤ r.toNat ∧ r.toNat ≤ 'z'.toNat then false
    else if 'A'.toNat ≤ r.toNat ∧ r.toNat ≤ 'Z'.toNat then false
    else if r = '_' then false
    else true
  else if L.isLetter r || L.isDigit r then false
  else L.isSpace r

/-- Go `unicode.ToTitle`. -/
def ToTitle (L : GoLib) (r : Char) : Char :=
  if r.toNat ≤ 0x7F then
    if 'a'.toNat ≤ r.toNat ∧ r.toNat ≤ 'z'.toNat then Char.ofNat (r.toNat - 32) else r
  else L.toTitle r

/-- The closure of `strings.Title` mapped over the runes, `prev` being the
rune seen last. -/
def titleMap (L : GoLib) : Char → List Char → List Char
  | _, [] => []
  | prev, r :: rs => (if isSeparator L prev then ToTitle L r else r) :: titleMap L r rs

/-- Go `strings.Title`: the first letter of every word is mapped to title
case. -/
def Title (L : GoLib) (s : String) : String :=
  String.mk (titleMap L ' ' s.data)

/-! ## Library layer: `net/url` and `net/http` -/

/-- Go `url.stringContainsCTLByte`: some byte is below `0x20` or is `0x7f`
(in UTF-8 text such a byte is a character of its own). -/
def stringContainsCTLByte (s : String) : Bool :=
  s.data.any fun c => decide (c.toNat < 0x20) || decide (c.toNat = 0x7f)

/-- The part of a URL text that `url.Parse` cuts off before the first `#`. -/
def beforeFragment (s : String) : String :=
  String.mk (s.data.takeWhile fun c => decide (c ≠ '#'))

/-- The token characters of HTTP (`httpguts.IsTokenRune`, and
`validHeaderFieldByte` of `net/textproto`). -/
def isTokenChar (c : Char) : Bool :=
  c.isAlphanum || "!#$%&*+-.^_|~".data.contains c || c.toNat = 39 || c.toNat = 96

/-- Go `http.validMethod`. -/
def validMethod (method : String) : Bool :=
  decide (method.length > 0) && method.data.all isTokenChar

/-- The canonicalising loop of `textproto.CanonicalMIMEHeaderKey`: a letter
is upper-cased at the start and after a dash and lower-cased elsewhere. -/
def canonicalLoop : Bool → List Char → List Char
  | _, [] => []
  | upper, c :: cs =>
    let c2 :=
      if upper = true ∧ 'a'.toNat ≤ c.toNat ∧ c.toNat ≤ 'z'.toNat then
        Char.ofNat (c.toNat - 32)
      else if upper = false ∧ 'A'.toNat ≤ c.toNat ∧ c.toNat ≤ 'Z'.toNat then
        Char.ofNat (c.toNat + 32)
      else c
    c2 :: canonicalLoop (decide (c2 = '-')) cs

/-- Go `textproto.CanonicalMIMEHeaderKey`: a key with a byte that is no
token character is returned unchanged. -/
def CanonicalMIMEHeaderKey (s : String) : String :=
  if s.data.all isTokenChar then String.mk (canonicalLoop true s.data) else s

/-- Go `Header.Add`: the value is appended to the values of the canonical
key. -/
def Header.Add (h : Header) (key value : String) : Header :=
  let k := CanonicalMIMEHeaderKey key
  match h.lookup k with
  | some _ => h.map fun p => if p.1 = k then (p.1, p.2 ++ [value]) else p
  | none => h ++ [(k, [value])]

/-- Go `http.NewRequest`: the method is checked, the URL text is parsed
(`url.Parse` rejects a control byte before `#` first), and the request is
returned with an empty header. -/
def NewRequest (L : GoLib) (method url body : String) : Except Error Request :=
  let method := if method = "" then "GET" else method
  if validMethod method = false then
    .error ("net/http: invalid method " ++ L.quote method)
  else if stringContainsCTLByte (beforeFragment url) = true then
    .error ("parse " ++ L.quote (beforeFragment url) ++
      ": net/url: invalid control character in URL")
  else
    match L.parseURL url with
    | .error err => .error err
    | .ok parsed => .ok { Method := method, URL := parsed, Header := [], Body := body }

/-! ## `main.go` -/

/-- The process environment: `os.LookupEnv`. -/
abbrev Env := String → Option String

/-- Go `os.Getenv`: the value of the variable, empty when it is unset. -/
def Getenv (env : Env) (key : String) : String :=
  (env key).getD ""

/-- The step's configuration (`type config struct`). -/
structure config where
  PrivateToken : String
  ProjectID : String
  CommitHash : String
  PipelineID : String
  APIURL : String
  Status : String
  TargetURL : String
  Context : String
  Description : String
  Coverage : Float64

/-- `getState` of `main.go`. -/
def getState (env : Env) (preset : String) : String :=
  if preset ≠ "auto" then preset
  else if Getenv env "BITRISE_BUILD_STATUS" = "0" then "success"
  else "failed"

/-- `getDescription` of `main.go`. -/
def getDescription (L : GoLib) (env : Env) (desc state : String) : String :=
  if desc = "" then Title L (getState env state)
  else desc

/-- Go `url.Values`: a map from a field name to its list of values, written
as the association list of the map literal. -/
abbrev Values := List (String × List String)

/-- An HTTP response as `sendStatus` uses it. -/
structure Response where
  /-- The field `resp.Status`. -/
  Status : String
  /-- The field `resp.StatusCode`. -/
  StatusCode : Int
  /-- The outcome of `ioutil.ReadAll(resp.Body)`. -/
  readAll : Except Error String
  /-- The outcome of `resp.Body.Close()`. -/
  close : Option Error

/-- The network during one invocation of `sendStatus`: the outcome of
`http.DefaultClient.Do`. -/
structure World where
  doRequest : Request → Except Error Response

/-- The observable effects of the program. -/
inductive Event where
  /-- `sendStatus` is entered. -/
  | call
  /-- `http.DefaultClient.Do(req)` is called. -/
  | send (req : Request)
  /-- `ioutil.ReadAll(resp.Body)`. -/
  | readBody
  /-- `resp.Body.Close()`. -/
  | closeBody
  /-- `time.Sleep(d)`, `d` in nanoseconds. -/
  | sleep (d : Nat)
  /-- `log.Warnf`. -/
  | warnf (msg : String)
  /-- `log.Errorf`. -/
  | errorf (msg : String)
  /-- `stepconf.Print(cfg)`. -/
  | printConfig
  deriving DecidableEq

/-- The local variable `form` of `sendStatus`. -/
def sendStatus.form (L : GoLib) (env : Env) (cfg : config) : Values :=
  [ ("state", [getState env cfg.Status]),
    ("target_url", [cfg.TargetURL]),
    ("description", [getDescription L env cfg.Description cfg.Status]),
    ("context", [cfg.Context]),
    ("coverage", [Sprintf L "%f" [.float64 cfg.Coverage]]),
    ("pipeline_id", [cfg.PipelineID]) ]

/-- The local variable `url` of `sendStatus`. -/
def sendStatus.url (L : GoLib) (cfg : config) : String :=
  let repo := cfg.ProjectID
  Sprintf L "%s/projects/%s/statuses/%s" [.str cfg.APIURL, .str repo, .str cfg.CommitHash]

/-- The two `req.Header.Add` calls of `sendStatus`. -/
def sendStatus.addHeaders (cfg : config) (req : Request) : Request :=
  let h1 := Header.Add req.Header "PRIVATE-TOKEN" cfg.PrivateToken
  let h2 := Header.Add h1 "Content-Type" "application/x-www-form-urlencoded"
  { req with Header := h2 }

/-- `sendStatus` of `main.go`: the returned error and the effects performed,
in order. -/
def sendStatus (L : GoLib) (env : Env) (W : World) (cfg : config) :
    Option Error × List Event :=
  let form := sendStatus.form L env cfg
  let url := sendStatus.url L cfg
  match NewRequest L "POST" url (L.encode form) with
  | .error err => (some err, [])
  | .ok req0 =>
    let req := sendStatus.addHeaders cfg req0
    match W.doRequest req with
    | .error err =>
      (some (Sprintf L "failed to send the request: %s" [.str err]), [.send req])
    | .ok resp =>
      match resp.readAll with
      | .error err => (some err, [.send req, .readBody])
      | .ok body =>
        match resp.close with
        | some err => (some err, [.send req, .readBody, .closeBody])
        | none =>
          if 200 > resp.StatusCode ∨ resp.StatusCode ≥ 300 then
            (some (Sprintf L "server error: %s url: %s code: %d body: %s"
                [.str resp.Status, .str url, .int resp.StatusCode, .str body]),
              [.send req, .readBody, .closeBody])
          else
            -- `return err`: the error of `ReadAll`, which is nil here
            (none, [.send req, .readBody, .closeBody])

/-! ## The retry loop -/

/-- The state threaded through the attempts: how often `sendStatus` has been
invoked, and the effects so far. -/
structure Sys where
  sent : Nat
  trace : List Event

/-- The state in which the retry loop of `main` starts. -/
def Sys.start : Sys :=
  { sent := 0, trace := [] }

/-- Go `time.Second`, in nanoseconds. -/
def Second : Nat := 1000000000

/-- The type `retry.Model` of the package
`github.com/bitrise-io/go-utils/retry` that `main.go` imports: the number of
retries and the delay before a retry. -/
structure Model where
  retry : Nat
  waitTime : Nat

/-- The function `retry.Times(retry)` of the retry package. -/
def Times (n : Nat) : Model :=
  { retry := n, waitTime := 0 }

/-- The method `Model.Wait(waitTime)` of the retry package. -/
def Model.Wait (m : Model) (d : Nat) : Model :=
  { m with waitTime := d }

/-- The head of the loop body of `Model.Try`:
`if attempt > 0 && Model.waitTime > 0 { time.Sleep(Model.waitTime) }`. -/
def Model.pause (m : Model) (attempt : Nat) (s : Sys) : Sys :=
  if attempt > 0 ∧ m.waitTime > 0 then
    { s with trace := s.trace ++ [Event.sleep m.waitTime] }
  else s

/-- The loop of `Model.Try` in the retry package:
`for attempt := uint(0); (0 == attempt || nil != err) && attempt <= Model.retry; attempt++`
with the body `err = action(attempt)` after the sleep, and `return err`
after the loop.  `left` counts the values of `attempt` up to `Model.retry`
that are still to come, `err` is the error of the attempt before. -/
def Model.loop (m : Model) (action : Nat → Sys → Option Error × Sys) :
    Nat → Nat → Option Error → Sys → Option Error × Sys
  | 0, _, err, s => (err, s)
  | left + 1, attempt, err, s =>
    if attempt = 0 ∨ err ≠ none then
      Model.loop m action left (attempt + 1)
        (action attempt (m.pause attempt s)).1 (action attempt (m.pause attempt s)).2
    else (err, s)

/-- The method `Model.Try(action)` of the retry package: `attempt` runs
from 0 up to `Model.retry`, so `Times(n)` allows the first attempt and `n`
retries. -/
def Model.Try (m : Model) (action : Nat → Sys → Option Error × Sys) (s : Sys) :
    Option Error × Sys :=
  Model.loop m action (m.retry + 1) 0 none s

/-- The closure handed to `Try` in `main`; `W i` is the network during the
invocation of `sendStatus` that follows `i` earlier ones. -/
def main.action (L : GoLib) (env : Env) (W : Nat → World) (cfg : config)
    (attempt : Nat) (s : Sys) : Option Error × Sys :=
  let s1 : Sys :=
    if attempt > 0 then
      { s with trace := s.trace ++ [Event.warnf (Sprintf L "%d attempt failed" [.int attempt])] }
    else s
  let r := sendStatus L env (W s1.sent) cfg
  (r.1, { sent := s1.sent + 1, trace := s1.trace ++ Event.call :: r.2 })

/-- The expression `retry.Times(3).Wait(5 * time.Second).Try(...)` of `main`. -/
def main.retry (L : GoLib) (env : Env) (W : Nat → World) (cfg : config) (s : Sys) :
    Option Error × Sys :=
  ((Times 3).Wait (5 * Second)).Try (main.action L env W cfg) s

/-- `main` of `main.go`: the exit code and the effects, given the outcome
`parsed` of `stepconf.Parse`. -/
def main (L : GoLib) (env : Env) (parsed : Except Error config) (W : Nat → World) :
    Nat × List Event :=
  if Getenv env "commit_hash" = "" then
    (1, [.warnf (Sprintf L "GitLab requires a commit hash for build status reporting" [])])
  else
    match parsed with
    | .error err => (1, [.errorf (Sprintf L "Error: %s\n" [.str err])])
    | .ok cfg =>
      match main.retry L env W cfg Sys.start with
      | (some err, s) =>
        (1, Event.printConfig :: s.trace ++
          [.errorf (Sprintf L "Failed to set status, error: %s" [.str err])])
      | (none, s) => (0, Event.printConfig :: s.trace)

/-- The number of invocations of `sendStatus` recorded in a trace. -/
def calls (tr : List Event) : Nat :=
  tr.count Event.call

/-- The number of `time.Sleep` calls recorded in a trace. -/
def sleeps (tr : List Event) : List Nat :=
  tr.filterMap fun e => match e with
    | .sleep d => some d
    | _ => none

/-! ## Vocabulary of the specification -/

/-- The values the configuration admits for the status preset
(`opt[auto,pending,running,success,failed,canceled]`). -/
def presets : List String :=
  ["auto", "pending", "running", "success", "failed", "canceled"]

/-- The five concrete commit states. -/
def concreteStates : List String :=
  ["pending", "running", "success", "failed", "canceled"]

/-- The specification's default description: the text with its first
character upper-cased and every other character unchanged. -/
def upperFirst (s : String) : String :=
  match s.data with
  | [] => ""
  | c :: cs => String.mk (c.toUpper :: cs)

/-! ## Sample inputs -/

/-- A library instance: identity title-casing above ASCII, and a URL parser
that accepts every text and renders it as it was written. -/
def sampleLib : GoLib :=
  { toTitle := id
    isLetter := fun _ => false
    isDigit := fun _ => false
    isSpace := fun _ => false
    floatV := fun _ => "?"
    encode := fun _ => ""
    quote := fun t => t
    parseURL := fun t => .ok t }

/-- The configuration of the specification's examples: coverage 87.5. -/
def sampleConfig : config :=
  { PrivateToken := "token"
    ProjectID := "42"
    CommitHash := "abc123"
    PipelineID := "7"
    APIURL := "https://gitlab.example.com/api/v4"
    Status := "auto"
    TargetURL := ""
    Context := ""
    Description := ""
    Coverage := .finite false 175 (-1) }

/-- An environment in which only BITRISE_BUILD_STATUS is set, to "0". -/
def sampleEnv : Env :=
  fun key => if key = "BITRISE_BUILD_STATUS" then some "0" else none

/-- A response with the given status code whose body reads and closes. -/
def plainResponse (code : Int) : Response :=
  { Status := "", StatusCode := code, readAll := .ok "", close := none }

/-- A response whose body cannot be read to the end. -/
def brokenResponse : Response :=
  { Status := "200 OK", StatusCode := 200, readAll := .error "unexpected EOF", close := none }

/-- A network that answers every request with the given response. -/
def answering (resp : Response) : World :=
  { doRequest := fun _ => .ok resp }

/-- A network on which every request fails in transport. -/
def offline : World :=
  { doRequest := fun _ => .error "dial tcp: i/o timeout" }

/-- A network whose first request fails in transport and whose later
requests are answered with 201. -/
def flaky (i : Nat) : World :=
  if i = 0 then offline else answering (plainResponse 201)

/-- A network on which three requests fail in transport and the fourth is
answered with 201. -/
def lateSuccess (i : Nat) : World :=
  if i < 3 then offline else answering (plainResponse 201)

/-- A network on which every request fails in transport, each with an
error that names the request. -/
def failing (i : Nat) : World :=
  { doRequest := fun _ => .error ("i/o timeout on request " ++ toString (i + 1)) }

/-- The sample configuration with a line feed at the end of the commit
hash. -/
def ctlConfig : config :=
  { sampleConfig with CommitHash := "abc123\n" }

/-- The request `sendStatus` hands to the client for the sample inputs. -/
def sampleRequest : Request :=
  { Method := "POST"
    URL := "https://gitlab.example.com/api/v4/projects/42/statuses/abc123"
    Header := [("Private-Token", ["token"]),
               ("Content-Type", ["application/x-www-form-urlencoded"])]
    Body := "" }

/-- The specification's request URL: the base URL, "/projects/", the
project, "/statuses/" and the commit hash, written one after the other. -/
def concatURL (cfg : config) : String :=
  cfg.APIURL ++ "/projects/" ++ cfg.ProjectID ++ "/statuses/" ++ cfg.CommitHash

/-! ## Properties of `getState` and `getDescription` -/

theorem Getenv_eq_zero_iff (env : Env) (key : String) :
    Getenv env key = "0" ↔ env key = some "0" := by
  unfold Getenv
  cases h : env key with
  | none => simp
  | some v => simp

theorem getState_of_ne_auto (env : Env) (preset : String) (h : preset ≠ "auto") :
    getState env preset = preset := by
  simp [getState, h]

theorem getState_auto_cases (env : Env) :
    getState env "auto" = "success" ∨ getState env "auto" = "failed" := by
  unfold getState
  by_cases h : Getenv env "BITRISE_BUILD_STATUS" = "0" <;> simp [h]

theorem getState_mem_concrete (env : Env) (preset : String) (h : preset ∈ presets) :
    getState env preset ∈ concreteStates := by
  simp only [presets, List.mem_cons, List.mem_singleton, List.not_mem_nil, or_false] at h
  rcases h with h | h | h | h | h | h
  · subst h
    rcases getState_auto_cases env with h | h <;> rw [h] <;> decide
  all_goals
    subst h
    rw [getState_of_ne_auto _ _ (by decide)]
    decide

theorem Title_concrete (L : GoLib) (s : String) (h : s ∈ concreteStates) :
    Title L s = upperFirst s := by
  simp only [concreteStates, List.mem_cons, List.mem_singleton, List.not_mem_nil, or_false] at h
  rcases h with h | h | h | h | h <;> subst h <;> rfl

/-- C1: for every preset other than "auto" and every value of the
environment (BITRISE_BUILD_STATUS set to anything or unset), `getState`
returns the preset unchanged; in particular for pending, running, success,
failed and canceled. -/
theorem getState_preset_unchanged :
    (∀ (env : Env) (preset : String), preset ≠ "auto" → getState env preset = preset) ∧
    (∀ (env : Env) (preset : String), preset ∈ concreteStates →
      getState env preset = preset) := by
  refine ⟨getState_of_ne_auto, ?_⟩
  intro env preset h
  apply getState_of_ne_auto
  intro h2
  subst h2
  revert h
  decide

theorem getState_preset_unchanged_witness :
    "running" ≠ "auto" ∧ getState (fun _ => some "0") "running" = "running" :=
  ⟨by decide, getState_preset_unchanged.1 (fun _ => some "0") "running" (by decide)⟩

/-- C2: for the preset "auto", `getState` returns "success" when
BITRISE_BUILD_STATUS has the value "0" and "failed" for every other value
of that variable; unset, empty, "1", "00" and " 0" all give "failed". -/
theorem getState_auto (env : Env) :
    (env "BITRISE_BUILD_STATUS" = some "0" → getState env "auto" = "success") ∧
    (env "BITRISE_BUILD_STATUS" ≠ some "0" → getState env "auto" = "failed") ∧
    (∀ v ∈ [none, some "", some "1", some "00", some " 0"],
      env "BITRISE_BUILD_STATUS" = v → getState env "auto" = "failed") := by
  have key := Getenv_eq_zero_iff env "BITRISE_BUILD_STATUS"
  have hfail : env "BITRISE_BUILD_STATUS" ≠ some "0" → getState env "auto" = "failed" := by
    intro h
    have h2 : ¬ Getenv env "BITRISE_BUILD_STATUS" = "0" := fun h3 => h (key.mp h3)
    simp [getState, h2]
  refine ⟨?_, hfail, ?_⟩
  · intro h
    simp [getState, key.mpr h]
  · intro v hv hval
    apply hfail
    rw [hval]
    intro h0
    subst h0
    revert hv
    decide

theorem getState_auto_witness :
    ((fun _ => some "0" : Env) "BITRISE_BUILD_STATUS" = some "0" ∧
      getState (fun _ => some "0") "auto" = "success") ∧
    ((fun _ => none : Env) "BITRISE_BUILD_STATUS" ≠ some "0" ∧
      getState (fun _ => none) "auto" = "failed") ∧
    (some " 0" ∈ [none, some "", some "1", some "00", some " 0"] ∧
      (fun _ => some " 0" : Env) "BITRISE_BUILD_STATUS" = some " 0" ∧
      getState (fun _ => some " 0") "auto" = "failed") :=
  ⟨⟨rfl, (getState_auto (fun _ => some "0")).1 rfl⟩,
   ⟨by decide, (getState_auto (fun _ => none)).2.1 (by decide)⟩,
   ⟨by decide, rfl, (getState_auto (fun _ => some " 0")).2.2 (some " 0") (by decide) rfl⟩⟩

/-- C10: the resolved status is never the sentinel "auto", for every preset
string and every environment; hence `getState` is idempotent; and for every
admitted preset the resolved status is one of the five concrete states. -/
theorem getState_never_sentinel :
    (∀ (env : Env) (preset : String), getState env preset ≠ "auto") ∧
    (∀ (env : Env) (preset : String),
      getState env (getState env preset) = getState env preset) ∧
    (∀ (env : Env) (preset : String), preset ∈ presets →
      getState env preset ∈ concreteStates) := by
  have hne : ∀ (env : Env) (preset : String), getState env preset ≠ "auto" := by
    intro env preset
    by_cases h : preset = "auto"
    · subst h
      rcases getState_auto_cases env with h | h <;> rw [h] <;> decide
    · rw [getState_of_ne_auto env preset h]
      exact h
  exact ⟨hne, fun env preset => getState_of_ne_auto env _ (hne env preset),
    getState_mem_concrete⟩

theorem getState_never_sentinel_witness :
    "auto" ∈ presets ∧ getState (fun _ => none) "auto" ∈ concreteStates :=
  ⟨by decide, getState_never_sentinel.2.2 (fun _ => none) "auto" (by decide)⟩

/-- C3: a non-empty configured description is returned verbatim; for every
admitted preset and every environment an empty description gives the
resolved status with its first character upper-cased and the rest
unchanged.  With the status "failed": "" gives "Failed" and "custom text"
gives "custom text". -/
theorem getDescription_spec :
    (∀ (L : GoLib) (env : Env) (d preset : String), d ≠ "" →
      getDescription L env d preset = d) ∧
    (∀ (L : GoLib) (env : Env) (preset : String), preset ∈ presets →
      getDescription L env "" preset = upperFirst (getState env preset)) ∧
    (∀ (L : GoLib) (env : Env), getDescription L env "" "failed" = "Failed") ∧
    (∀ (L : GoLib) (env : Env),
      getDescription L env "custom text" "failed" = "custom text") := by
  refine ⟨?_, ?_, ?_, ?_⟩
  · intro L env d preset h
    simp [getDescription, h]
  · intro L env preset h
    simp only [getDescription, if_true]
    exact Title_concrete L _ (getState_mem_concrete env preset h)
  · intro L env
    simp only [getDescription, if_true]
    rw [getState_of_ne_auto env "failed" (by decide)]
    rfl
  · intro L env
    have h : ("custom text" : String) ≠ "" := by decide
    simp [getDescription, h]

theorem getDescription_spec_witness :
    (("skipped on purpose" : String) ≠ "" ∧
      getDescription sampleLib sampleEnv "skipped on purpose" "auto" =
        "skipped on purpose") ∧
    ("auto" ∈ presets ∧
      getDescription sampleLib sampleEnv "" "auto" =
        upperFirst (getState sampleEnv "auto")) :=
  ⟨⟨by decide, getDescription_spec.1 _ _ _ _ (by decide)⟩,
   ⟨by decide, getDescription_spec.2.1 _ _ _ (by decide)⟩⟩

/-! ## Properties of `sendStatus` -/

theorem Sprintf_url (L : GoLib) (a b c : String) :
    Sprintf L "%s/projects/%s/statuses/%s" [.str a, .str b, .str c] =
      a ++ "/projects/" ++ b ++ "/statuses/" ++ c := by
  apply String.ext
  simp [Sprintf, doPrintf, printArg, extraArgs, String.data_append]

theorem url_eq_concat (L : GoLib) (cfg : config) : sendStatus.url L cfg = concatURL cfg :=
  Sprintf_url L _ _ _

theorem NewRequest_ok (L : GoLib) (url body : String) (req0 : Request)
    (h : NewRequest L "POST" url body = .ok req0) :
    L.parseURL url = .ok req0.URL ∧ req0.Method = "POST" ∧
    stringContainsCTLByte (beforeFragment url) = false := by
  unfold NewRequest at h
  have hm : validMethod "POST" = true := by decide
  have hp : (if ("POST" : String) = "" then "GET" else "POST") = "POST" := by decide
  simp only [hp, hm] at h
  cases hc : stringContainsCTLByte (beforeFragment url) with
  | true => simp [hc] at h
  | false =>
    simp only [hc] at h
    cases hu : L.parseURL url with
    | error e => simp [hu] at h
    | ok parsed =>
      simp only [hu] at h
      simp at h
      subst h
      exact ⟨rfl, rfl, rfl⟩

theorem NewRequest_ctl (L : GoLib) (url body : String)
    (h : stringContainsCTLByte (beforeFragment url) = true) :
    ∃ e, NewRequest L "POST" url body = .error e := by
  unfold NewRequest
  have hm : validMethod "POST" = true := by decide
  have hp : (if ("POST" : String) = "" then "GET" else "POST") = "POST" := by decide
  simp only [hp, hm, h]
  exact ⟨_, rfl⟩

theorem sendStatus_rejected (L : GoLib) (env : Env) (W : World) (cfg : config) (e : Error)
    (h : NewRequest L "POST" (sendStatus.url L cfg) (L.encode (sendStatus.form L env cfg)) =
      .error e) :
    sendStatus L env W cfg = (some e, []) := by
  simp only [sendStatus, h]

theorem sendStatus_trace (L : GoLib) (env : Env) (W : World) (cfg : config) (req0 : Request)
    (h : NewRequest L "POST" (sendStatus.url L cfg) (L.encode (sendStatus.form L env cfg)) =
      .ok req0) :
    ∃ rest, (sendStatus L env W cfg).2 = Event.send (sendStatus.addHeaders cfg req0) :: rest ∧
      ∀ e ∈ rest, e = Event.readBody ∨ e = Event.closeBody := by
  simp only [sendStatus, h]
  cases hd : W.doRequest (sendStatus.addHeaders cfg req0) with
  | error e => exact ⟨[], rfl, by simp⟩
  | ok resp =>
    cases hr : resp.readAll with
    | error e => exact ⟨[Event.readBody], by simp [hr], by simp⟩
    | ok body =>
      cases hc : resp.close with
      | some e => exact ⟨[Event.readBody, Event.closeBody], by simp [hr, hc], by simp⟩
      | none =>
        refine ⟨[Event.readBody, Event.closeBody], ?_, by simp⟩
        simp only [hr, hc]
        split_ifs <;> rfl

/-- C4 (amended): for every configuration the URL text `sendStatus` builds
is exactly APIURL ++ "/projects/" ++ ProjectID ++ "/statuses/" ++ CommitHash,
every component verbatim.  That text goes to `http.NewRequest`: when it is
accepted, the one request `sendStatus` sends carries the URL parsed from
exactly that text; when it is rejected, as every text with a control
character is, `sendStatus` returns the error and sends nothing.  For the
base URL "https://gitlab.example.com/api/v4", project "42" and commit
"abc123" the text is
"https://gitlab.example.com/api/v4/projects/42/statuses/abc123". -/
theorem sendStatus_url_text (L : GoLib) (env : Env) (W : World) (cfg : config) :
    sendStatus.url L cfg = concatURL cfg ∧
    (∀ req0 : Request,
      NewRequest L "POST" (concatURL cfg) (L.encode (sendStatus.form L env cfg)) = .ok req0 →
      L.parseURL (concatURL cfg) = .ok req0.URL ∧
      ∃ rest, (sendStatus L env W cfg).2 =
          Event.send (sendStatus.addHeaders cfg req0) :: rest ∧
        (sendStatus.addHeaders cfg req0).URL = req0.URL ∧
        ∀ r, Event.send r ∉ rest) ∧
    (∀ err : Error,
      NewRequest L "POST" (concatURL cfg) (L.encode (sendStatus.form L env cfg)) = .error err →
      sendStatus L env W cfg = (some err, [])) ∧
    (stringContainsCTLByte (beforeFragment (concatURL cfg)) = true →
      (sendStatus L env W cfg).1 ≠ none ∧ (sendStatus L env W cfg).2 = []) ∧
    sendStatus.url L { cfg with
        APIURL := "https://gitlab.example.com/api/v4", ProjectID := "42",
        CommitHash := "abc123" } =
      "https://gitlab.example.com/api/v4/projects/42/statuses/abc123" := by
  have hurl := url_eq_concat L cfg
  refine ⟨hurl, ?_, ?_, ?_, ?_⟩
  · intro req0 h
    rw [← hurl] at h
    obtain ⟨rest, h1, h2⟩ := sendStatus_trace L env W cfg req0 h
    refine ⟨?_, rest, h1, rfl, ?_⟩
    · rw [← hurl]
      exact (NewRequest_ok L _ _ req0 h).1
    · intro r hr
      rcases h2 _ hr with h3 | h3 <;> cases h3
  · intro err h
    rw [← hurl] at h
    exact sendStatus_rejected L env W cfg err h
  · intro h
    rw [← hurl] at h
    obtain ⟨e, he⟩ := NewRequest_ctl L (sendStatus.url L cfg)
      (L.encode (sendStatus.form L env cfg)) h
    rw [sendStatus_rejected L env W cfg e he]
    exact ⟨by simp, rfl⟩
  · rw [url_eq_concat]
    show ("https://gitlab.example.com/api/v4" : String) ++ "/projects/" ++ "42" ++
      "/statuses/" ++ "abc123" = _
    decide

theorem sendStatus_url_text_witness :
    (NewRequest sampleLib "POST" (concatURL sampleConfig)
        (sampleLib.encode (sendStatus.form sampleLib sampleEnv sampleConfig)) =
        .ok { Method := "POST", URL := concatURL sampleConfig, Header := [], Body := "" } ∧
      ∃ rest, (sendStatus sampleLib sampleEnv offline sampleConfig).2 =
          Event.send (sendStatus.addHeaders sampleConfig
            { Method := "POST", URL := concatURL sampleConfig, Header := [], Body := "" }) ::
            rest ∧
        (sendStatus.addHeaders sampleConfig
          { Method := "POST", URL := concatURL sampleConfig, Header := [], Body := "" }).URL =
          concatURL sampleConfig ∧
        ∀ r, Event.send r ∉ rest) ∧
    (NewRequest sampleLib "POST" (concatURL ctlConfig)
        (sampleLib.encode (sendStatus.form sampleLib sampleEnv ctlConfig)) =
        .error ("parse " ++ concatURL ctlConfig ++
          ": net/url: invalid control character in URL") ∧
      sendStatus sampleLib sampleEnv offline ctlConfig =
        (some ("parse " ++ concatURL ctlConfig ++
          ": net/url: invalid control character in URL"), [])) ∧
    (stringContainsCTLByte (beforeFragment (concatURL ctlConfig)) = true ∧
      (sendStatus sampleLib sampleEnv offline ctlConfig).1 ≠ none ∧
      (sendStatus sampleLib sampleEnv offline ctlConfig).2 = []) :=
  ⟨⟨rfl, ((sendStatus_url_text sampleLib sampleEnv offline sampleConfig).2.1 _ rfl).2⟩,
   ⟨rfl, (sendStatus_url_text sampleLib sampleEnv offline ctlConfig).2.2.1 _ rfl⟩,
   ⟨by decide, (sendStatus_url_text sampleLib sampleEnv offline ctlConfig).2.2.2.1 (by decide)⟩⟩

/-- C4 (as stated) fails: with a line feed at the end of the commit hash the
concatenated text is rejected by `http.NewRequest`, so `sendStatus` returns
an error and sends no request, on a network that would answer 201. -/
theorem sendStatus_url_rejected :
    sendStatus.url sampleLib ctlConfig =
      "https://gitlab.example.com/api/v4/projects/42/statuses/abc123\n" ∧
    (sendStatus sampleLib sampleEnv (answering (plainResponse 201)) ctlConfig).1 ≠ none ∧
    (sendStatus sampleLib sampleEnv (answering (plainResponse 201)) ctlConfig).2 = [] ∧
    (sendStatus sampleLib sampleEnv (answering (plainResponse 201)) sampleConfig).2 =
      [Event.send sampleRequest, Event.readBody, Event.closeBody] := by
  refine ⟨by decide, by decide, by decide, by decide⟩

/-- C5: once the transport has produced a response, a status code outside
[200, 300) makes `sendStatus` return an error, and a code inside [200, 300)
with the body read and closed without error makes it return no error; 201
succeeds, 199, 300, 404 and 500 fail. -/
theorem sendStatus_status_code (L : GoLib) (env : Env) (W : World) (cfg : config)
    (req0 : Request) (resp : Response)
    (hreq : NewRequest L "POST" (sendStatus.url L cfg)
      (L.encode (sendStatus.form L env cfg)) = .ok req0)
    (hdo : W.doRequest (sendStatus.addHeaders cfg req0) = .ok resp) :
    ((resp.StatusCode < 200 ∨ 300 ≤ resp.StatusCode) →
      (sendStatus L env W cfg).1 ≠ none) ∧
    ((200 ≤ resp.StatusCode ∧ resp.StatusCode < 300) →
      (∃ body, resp.readAll = .ok body) → resp.close = none →
      (sendStatus L env W cfg).1 = none) ∧
    (resp.StatusCode = 201 → (∃ body, resp.readAll = .ok body) → resp.close = none →
      (sendStatus L env W cfg).1 = none) ∧
    (resp.StatusCode ∈ [199, 300, 404, 500] → (sendStatus L env W cfg).1 ≠ none) := by
  have hout : (resp.StatusCode < 200 ∨ 300 ≤ resp.StatusCode) →
      (sendStatus L env W cfg).1 ≠ none := by
    intro hcode
    simp only [sendStatus, hreq, hdo]
    cases hr : resp.readAll with
    | error e => simp
    | ok body =>
      cases hc : resp.close with
      | some e => simp
      | none =>
        have h2 : 200 > resp.StatusCode ∨ resp.StatusCode ≥ 300 := hcode
        simp [h2]
  have hin : (200 ≤ resp.StatusCode ∧ resp.StatusCode < 300) →
      (∃ body, resp.readAll = .ok body) → resp.close = none →
      (sendStatus L env W cfg).1 = none := by
    rintro ⟨h1, h2⟩ ⟨body, hr⟩ hc
    have h3 : ¬ (200 > resp.StatusCode ∨ resp.StatusCode ≥ 300) := by omega
    simp [sendStatus, hreq, hdo, hr, hc, h3]
  refine ⟨hout, hin, ?_, ?_⟩
  · intro h
    exact hin (by omega)
  · intro h
    apply hout
    simp only [List.mem_cons, List.mem_singleton, List.not_mem_nil, or_false] at h
    omega

theorem sendStatus_status_code_witness :
    (NewRequest sampleLib "POST" (sendStatus.url sampleLib sampleConfig)
        (sampleLib.encode (sendStatus.form sampleLib sampleEnv sampleConfig)) =
        .ok { Method := "POST", URL := concatURL sampleConfig, Header := [], Body := "" } ∧
      (answering (plainResponse 404)).doRequest sampleRequest = .ok (plainResponse 404) ∧
      (plainResponse 404).StatusCode ∈ [199, 300, 404, 500] ∧
      (sendStatus sampleLib sampleEnv (answering (plainResponse 404)) sampleConfig).1 ≠
        none) ∧
    ((200 ≤ (plainResponse 201).StatusCode ∧ (plainResponse 201).StatusCode < 300) ∧
      (∃ body, (plainResponse 201).readAll = .ok body) ∧
      (plainResponse 201).close = none ∧
      (sendStatus sampleLib sampleEnv (answering (plainResponse 201)) sampleConfig).1 =
        none) :=
  ⟨⟨rfl, rfl, by decide,
    (sendStatus_status_code sampleLib sampleEnv (answering (plainResponse 404))
      sampleConfig { Method := "POST", URL := concatURL sampleConfig, Header := [], Body := "" }
      (plainResponse 404) rfl rfl).2.2.2 (by decide)⟩,
   ⟨by decide, ⟨"", rfl⟩, rfl,
    (sendStatus_status_code sampleLib sampleEnv (answering (plainResponse 201))
      sampleConfig { Method := "POST", URL := concatURL sampleConfig, Header := [], Body := "" }
      (plainResponse 201) rfl rfl).2.1 (by decide) ⟨"", rfl⟩ rfl⟩⟩

/-- C6 (as the code behaves): when reading the response body fails,
`sendStatus` returns the read error after `Do` and `ReadAll` only; the
response body is never closed on that path. -/
theorem sendStatus_read_error_leaves_body_open :
    sendStatus sampleLib sampleEnv (answering brokenResponse) sampleConfig =
      (some "unexpected EOF", [Event.send sampleRequest, Event.readBody]) ∧
    Event.closeBody ∉
      (sendStatus sampleLib sampleEnv (answering brokenResponse) sampleConfig).2 := by
  have h : sendStatus sampleLib sampleEnv (answering brokenResponse) sampleConfig =
      (some "unexpected EOF", [Event.send sampleRequest, Event.readBody]) := by decide
  refine ⟨h, ?_⟩
  rw [h]
  simp

theorem Sprintf_float (L : GoLib) (x : Float64) :
    Sprintf L "%f" [.float64 x] = formatF x := by
  apply String.ext
  simp [Sprintf, doPrintf, printArg, extraArgs]

theorem digitOf_isDigit (n : Nat) : (digitOf n).isDigit = true := by
  have h : n % 10 < 10 := Nat.mod_lt _ (by decide)
  unfold digitOf
  interval_cases (n % 10) <;> decide

theorem frac6_digits (n : Nat) :
    (frac6 n).length = 6 ∧ ∀ c ∈ frac6 n, c.isDigit = true := by
  refine ⟨rfl, ?_⟩
  intro c hc
  simp only [frac6, List.mem_cons, List.mem_singleton, List.not_mem_nil, or_false] at hc
  rcases hc with h | h | h | h | h | h <;> rw [h] <;> exact digitOf_isDigit _

/-- The rounding of `%f` is to a nearest integer: twice the distance of
`roundHalfEven num den` from `num / den` is at most one. -/
theorem roundHalfEven_nearest (num den : Nat) (hden : 0 < den) :
    2 * (roundHalfEven num den * den) ≤ 2 * num + den ∧
    2 * num ≤ 2 * (roundHalfEven num den * den) + den := by
  have hdiv : den * (num / den) + num % den = num := Nat.div_add_mod num den
  have hmod : num % den < den := Nat.mod_lt _ hden
  have hmul : (num / den + 1) * den = den * (num / den) + den := by ring
  have hmul2 : num / den * den = den * (num / den) := by ring
  unfold roundHalfEven
  simp only
  split_ifs <;> simp only [hmul, hmul2] <;> omega

/-- C9: for every configuration the form built by `sendStatus` has exactly
the six fields state, target_url, description, context, coverage and
pipeline_id, each with one value: the resolved state, the target URL, the
description, the context, the pipeline id, and the `%f` rendering of the
coverage, which for every coverage that is a number (as the configuration's
range 0.0..100.0 requires) is a sign, integer digits, a point and exactly
six fractional digits; 87.5 gives "87.500000". -/
theorem sendStatus_form_fields (L : GoLib) (env : Env) (cfg : config) :
    (sendStatus.form L env cfg).map Prod.fst =
      ["state", "target_url", "description", "context", "coverage", "pipeline_id"] ∧
    (sendStatus.form L env cfg).lookup "state" = some [getState env cfg.Status] ∧
    (sendStatus.form L env cfg).lookup "target_url" = some [cfg.TargetURL] ∧
    (sendStatus.form L env cfg).lookup "description" =
      some [getDescription L env cfg.Description cfg.Status] ∧
    (sendStatus.form L env cfg).lookup "context" = some [cfg.Context] ∧
    (sendStatus.form L env cfg).lookup "pipeline_id" = some [cfg.PipelineID] ∧
    (sendStatus.form L env cfg).lookup "coverage" = some [formatF cfg.Coverage] ∧
    (∀ (neg : Bool) (mant : Nat) (exp : Int), cfg.Coverage = .finite neg mant exp →
      ∃ fp : String,
        (sendStatus.form L env cfg).lookup "coverage" =
          some [(if neg then "-" else "") ++ toString (scaled6 mant exp / 10 ^ 6) ++
            "." ++ fp] ∧
        fp.length = 6 ∧ ∀ c ∈ fp.data, c.isDigit = true) ∧
    (sendStatus.form L env { cfg with Coverage := .finite false 175 (-1) }).lookup
      "coverage" = some ["87.500000"] := by
  have hcov : ∀ c : config, (sendStatus.form L env c).lookup "coverage" =
      some [formatF c.Coverage] := by
    intro c
    simp [sendStatus.form, List.lookup, Sprintf_float]
  refine ⟨rfl, ?_, ?_, ?_, ?_, ?_, hcov cfg, ?_, ?_⟩
  · simp [sendStatus.form, List.lookup]
  · simp [sendStatus.form, List.lookup]
  · simp [sendStatus.form, List.lookup]
  · simp [sendStatus.form, List.lookup]
  · simp [sendStatus.form, List.lookup]
  · intro neg mant exp h
    refine ⟨String.mk (frac6 (scaled6 mant exp)), ?_, (frac6_digits _).1, (frac6_digits _).2⟩
    rw [hcov cfg, h]
    rfl
  · rw [hcov]
    show some [formatF (.finite false 175 (-1))] = some ["87.500000"]
    decide

theorem sendStatus_form_fields_witness :
    sampleConfig.Coverage = .finite false 175 (-1) ∧
    ∃ fp : String,
      (sendStatus.form sampleLib sampleEnv sampleConfig).lookup "coverage" =
        some [(if false then "-" else "") ++ toString (scaled6 175 (-1) / 10 ^ 6) ++
          "." ++ fp] ∧
      fp.length = 6 ∧ ∀ c ∈ fp.data, c.isDigit = true :=
  ⟨rfl, (sendStatus_form_fields sampleLib sampleEnv sampleConfig).2.2.2.2.2.2.2.1
    false 175 (-1) rfl⟩

/-! ## Properties of the retry loop -/

theorem sendStatus_quiet (L : GoLib) (env : Env) (W : World) (cfg : config) :
    calls (sendStatus L env W cfg).2 = 0 ∧ sleeps (sendStatus L env W cfg).2 = [] := by
  cases h : NewRequest L "POST" (sendStatus.url L cfg)
      (L.encode (sendStatus.form L env cfg)) with
  | error e =>
    rw [sendStatus_rejected L env W cfg e h]
    exact ⟨rfl, rfl⟩
  | ok req0 =>
    obtain ⟨rest, h1, h2⟩ := sendStatus_trace L env W cfg req0 h
    rw [h1]
    constructor
    · simp only [calls]
      apply List.count_eq_zero.mpr
      intro hmem
      rcases List.mem_cons.mp hmem with h3 | h3
      · cases h3
      · rcases h2 _ h3 with h4 | h4 <;> cases h4
    · simp only [sleeps, List.filterMap_cons]
      apply List.filterMap_eq_nil_iff.mpr
      intro e he
      rcases h2 _ he with h4 | h4 <;> subst h4 <;> rfl

theorem sendStatus_transport_error (L : GoLib) (env : Env) (W : World) (cfg : config)
    (req0 : Request) (e : Error)
    (h : NewRequest L "POST" (sendStatus.url L cfg) (L.encode (sendStatus.form L env cfg)) =
      .ok req0)
    (hd : W.doRequest (sendStatus.addHeaders cfg req0) = .error e) :
    (sendStatus L env W cfg).1 =
      some (Sprintf L "failed to send the request: %s" [.str e]) := by
  simp only [sendStatus, h, hd]

theorem calls_append (a b : List Event) : calls (a ++ b) = calls a + calls b := by
  simp [calls]

theorem sleeps_append (a b : List Event) : sleeps (a ++ b) = sleeps a ++ sleeps b := by
  simp [sleeps]

theorem Sprintf_attempt (L : GoLib) (n : Int) :
    Sprintf L "%d attempt failed" [.int n] = toString n ++ " attempt failed" := by
  apply String.ext
  simp [Sprintf, doPrintf, printArg, extraArgs, String.data_append]

theorem action_fst (L : GoLib) (env : Env) (W : Nat → World) (cfg : config)
    (attempt : Nat) (s : Sys) :
    (main.action L env W cfg attempt s).1 = (sendStatus L env (W s.sent) cfg).1 := by
  unfold main.action
  split_ifs <;> rfl

theorem action_sent (L : GoLib) (env : Env) (W : Nat → World) (cfg : config)
    (attempt : Nat) (s : Sys) :
    (main.action L env W cfg attempt s).2.sent = s.sent + 1 := by
  unfold main.action
  split_ifs <;> rfl

theorem action_trace (L : GoLib) (env : Env) (W : Nat → World) (cfg : config)
    (attempt : Nat) (s : Sys) :
    (main.action L env W cfg attempt s).2.trace =
      (if attempt > 0 then
        s.trace ++ [Event.warnf (toString (attempt : Int) ++ " attempt failed")]
       else s.trace) ++ Event.call :: (sendStatus L env (W s.sent) cfg).2 := by
  unfold main.action
  split_ifs <;> simp [Sprintf_attempt]

theorem pause_sent (m : Model) (attempt : Nat) (s : Sys) :
    (m.pause attempt s).sent = s.sent := by
  unfold Model.pause
  split_ifs <;> rfl

theorem pause_trace (m : Model) (attempt : Nat) (s : Sys) :
    (m.pause attempt s).trace =
      if attempt > 0 ∧ m.waitTime > 0 then s.trace ++ [Event.sleep m.waitTime]
      else s.trace := by
  unfold Model.pause
  split_ifs <;> rfl

theorem loop_step (m : Model) (action : Nat → Sys → Option Error × Sys)
    (left attempt : Nat) (err : Option Error) (s : Sys)
    (hc : attempt = 0 ∨ err ≠ none) :
    m.loop action (left + 1) attempt err s =
      m.loop action left (attempt + 1) (action attempt (m.pause attempt s)).1
        (action attempt (m.pause attempt s)).2 := by
  rw [Model.loop, if_pos hc]

theorem loop_stop (m : Model) (action : Nat → Sys → Option Error × Sys)
    (left attempt : Nat) (s : Sys) :
    m.loop action left (attempt + 1) none s = (none, s) := by
  cases left with
  | zero => rfl
  | succ l =>
    rw [Model.loop, if_neg]
    simp

theorem action_calls (L : GoLib) (env : Env) (W : Nat → World) (cfg : config)
    (m : Model) (attempt : Nat) (s : Sys) :
    calls (main.action L env W cfg attempt (m.pause attempt s)).2.trace =
      calls s.trace + 1 := by
  rw [action_trace, pause_trace, pause_sent, calls_append]
  have hq := (sendStatus_quiet L env (W s.sent) cfg).1
  simp only [calls] at hq ⊢
  split_ifs <;> simp [hq]

theorem loop_first_success (L : GoLib) (env : Env) (W : Nat → World) (cfg : config)
    (m : Model) :
    ∀ (j left attempt : Nat) (err : Option Error) (s : Sys), j < left →
      (attempt = 0 ∨ err ≠ none) →
      (∀ i, i < j → (sendStatus L env (W (s.sent + i)) cfg).1 ≠ none) →
      (sendStatus L env (W (s.sent + j)) cfg).1 = none →
      (m.loop (main.action L env W cfg) left attempt err s).1 = none ∧
      (m.loop (main.action L env W cfg) left attempt err s).2.sent = s.sent + j + 1 ∧
      calls (m.loop (main.action L env W cfg) left attempt err s).2.trace =
        calls s.trace + j + 1 ∧
      ∃ pre, (m.loop (main.action L env W cfg) left attempt err s).2.trace =
        pre ++ Event.call :: (sendStatus L env (W (s.sent + j)) cfg).2 := by
  intro j
  induction j with
  | zero =>
    intro left attempt err s hlt hc _ hok
    obtain ⟨l, rfl⟩ : ∃ l, left = l + 1 := ⟨left - 1, by omega⟩
    have h1 : (main.action L env W cfg attempt (m.pause attempt s)).1 = none := by
      rw [action_fst, pause_sent]
      exact hok
    rw [loop_step m _ l attempt err s hc, h1, loop_stop]
    refine ⟨rfl, ?_, ?_, ?_⟩
    · simp [action_sent, pause_sent]
    · simp [action_calls]
    · simp only [action_trace, pause_sent]
      exact ⟨_, rfl⟩
  | succ j ih =>
    intro left attempt err s hlt hc hfail hok
    obtain ⟨l, rfl⟩ : ∃ l, left = l + 1 := ⟨left - 1, by omega⟩
    obtain ⟨e, he⟩ := Option.ne_none_iff_exists'.mp (hfail 0 (by omega))
    have h1 : (main.action L env W cfg attempt (m.pause attempt s)).1 = some e := by
      rw [action_fst, pause_sent]
      exact he
    rw [loop_step m _ l attempt err s hc, h1]
    have hs : (main.action L env W cfg attempt (m.pause attempt s)).2.sent = s.sent + 1 := by
      rw [action_sent, pause_sent]
    have hidx : ∀ i, s.sent + 1 + i = s.sent + (i + 1) := fun i => by omega
    have := ih l (attempt + 1) (some e)
      (main.action L env W cfg attempt (m.pause attempt s)).2 (by omega)
      (Or.inr (by simp))
      (by
        intro i hi
        rw [hs, hidx]
        exact hfail (i + 1) (by omega))
      (by
        rw [hs, hidx]
        exact hok)
    rw [hs, hidx, action_calls] at this
    obtain ⟨g1, g2, g3, g4⟩ := this
    exact ⟨g1, by omega, by omega, g4⟩

theorem retry_all_fail (L : GoLib) (env : Env) (W : Nat → World) (cfg : config)
    (hfail : ∀ i, i < 4 → (sendStatus L env (W i) cfg).1 ≠ none) :
    main.retry L env W cfg Sys.start =
      ((sendStatus L env (W 3) cfg).1,
        { sent := 4
          trace :=
            Event.call :: (sendStatus L env (W 0) cfg).2 ++
            Event.sleep (5 * Second) :: Event.warnf "1 attempt failed" :: Event.call ::
              (sendStatus L env (W 1) cfg).2 ++
            Event.sleep (5 * Second) :: Event.warnf "2 attempt failed" :: Event.call ::
              (sendStatus L env (W 2) cfg).2 ++
            Event.sleep (5 * Second) :: Event.warnf "3 attempt failed" :: Event.call ::
              (sendStatus L env (W 3) cfg).2 }) := by
  obtain ⟨e0, h0⟩ := Option.ne_none_iff_exists'.mp (hfail 0 (by omega))
  obtain ⟨e1, h1⟩ := Option.ne_none_iff_exists'.mp (hfail 1 (by omega))
  obtain ⟨e2, h2⟩ := Option.ne_none_iff_exists'.mp (hfail 2 (by omega))
  have t1 : toString (1 : Int) ++ " attempt failed" = "1 attempt failed" := by decide
  have t2 : toString (2 : Int) ++ " attempt failed" = "2 attempt failed" := by decide
  have t3 : toString (3 : Int) ++ " attempt failed" = "3 attempt failed" := by decide
  simp [main.retry, Model.Try, Times, Model.Wait, Model.loop, Model.pause, main.action,
    Sys.start, Second, h0, h1, h2, Sprintf_attempt, t1, t2, t3]

theorem trace_counts (a b c d : List Event) (w1 w2 w3 : String) (n : Nat)
    (ha : calls a = 0 ∧ sleeps a = []) (hb : calls b = 0 ∧ sleeps b = [])
    (hc : calls c = 0 ∧ sleeps c = []) (hd : calls d = 0 ∧ sleeps d = []) :
    calls (Event.call :: a ++ Event.sleep n :: Event.warnf w1 :: Event.call :: b ++
      Event.sleep n :: Event.warnf w2 :: Event.call :: c ++
      Event.sleep n :: Event.warnf w3 :: Event.call :: d) = 4 ∧
    sleeps (Event.call :: a ++ Event.sleep n :: Event.warnf w1 :: Event.call :: b ++
      Event.sleep n :: Event.warnf w2 :: Event.call :: c ++
      Event.sleep n :: Event.warnf w3 :: Event.call :: d) = [n, n, n] := by
  obtain ⟨a1, a2⟩ := ha
  obtain ⟨b1, b2⟩ := hb
  obtain ⟨c1, c2⟩ := hc
  obtain ⟨d1, d2⟩ := hd
  constructor
  · simp only [calls] at a1 b1 c1 d1 ⊢
    simp [List.count_cons, a1, b1, c1, d1]
  · simp only [sleeps] at a2 b2 c2 d2 ⊢
    simp [List.filterMap_append, List.filterMap_cons, a2, b2, c2, d2]

/-- C8: the retry loop of `main` stops at the first attempt without error:
when the first success is at attempt k, with k within the bound of 4
attempts that `Times(3)` allows, `sendStatus` is invoked exactly k times,
the trace ends with the successful invocation, and the loop reports no
error.  (Success on the 2nd attempt: exactly 2 invocations and overall
success.) -/
theorem retry_stops_at_first_success (L : GoLib) (env : Env) (W : Nat → World)
    (cfg : config) (k : Nat) (hk1 : 1 ≤ k) (hk4 : k ≤ 4)
    (hfail : ∀ i, i + 1 < k → (sendStatus L env (W i) cfg).1 ≠ none)
    (hok : (sendStatus L env (W (k - 1)) cfg).1 = none) :
    (main.retry L env W cfg Sys.start).1 = none ∧
    (main.retry L env W cfg Sys.start).2.sent = k ∧
    calls (main.retry L env W cfg Sys.start).2.trace = k ∧
    ∃ pre, (main.retry L env W cfg Sys.start).2.trace =
      pre ++ Event.call :: (sendStatus L env (W (k - 1)) cfg).2 := by
  have h := loop_first_success L env W cfg ((Times 3).Wait (5 * Second)) (k - 1) 4 0 none
    Sys.start (by omega) (Or.inl rfl)
    (by
      intro i hi
      simp only [Sys.start, Nat.zero_add]
      exact hfail i (by omega))
    (by
      simp only [Sys.start, Nat.zero_add]
      exact hok)
  simp only [Sys.start, Nat.zero_add] at h
  obtain ⟨g1, g2, g3, g4⟩ := h
  have hk : k - 1 + 1 = k := by omega
  refine ⟨g1, ?_, ?_, g4⟩
  · rw [← hk]
    exact g2
  · have hc : calls ([] : List Event) = 0 := rfl
    rw [hc] at g3
    rw [← hk]
    simpa using g3

theorem retry_stops_at_first_success_witness :
    (1 ≤ 4 ∧ 4 ≤ 4 ∧
      (∀ i, i + 1 < 4 →
        (sendStatus sampleLib sampleEnv (lateSuccess i) sampleConfig).1 ≠ none) ∧
      (sendStatus sampleLib sampleEnv (lateSuccess (4 - 1)) sampleConfig).1 = none ∧
      (main.retry sampleLib sampleEnv lateSuccess sampleConfig Sys.start).1 = none ∧
      (main.retry sampleLib sampleEnv lateSuccess sampleConfig Sys.start).2.sent = 4) ∧
    (1 ≤ 2 ∧ 2 ≤ 4 ∧
      (∀ i, i + 1 < 2 → (sendStatus sampleLib sampleEnv (flaky i) sampleConfig).1 ≠ none) ∧
      (sendStatus sampleLib sampleEnv (flaky (2 - 1)) sampleConfig).1 = none ∧
      (main.retry sampleLib sampleEnv flaky sampleConfig Sys.start).1 = none ∧
      (main.retry sampleLib sampleEnv flaky sampleConfig Sys.start).2.sent = 2 ∧
      calls (main.retry sampleLib sampleEnv flaky sampleConfig Sys.start).2.trace = 2) :=
  have hlate : ∀ i, i + 1 < 4 →
      (sendStatus sampleLib sampleEnv (lateSuccess i) sampleConfig).1 ≠ none := by
    intro i hi
    have h3 : i = 0 ∨ i = 1 ∨ i = 2 := by omega
    rcases h3 with h | h | h <;> subst h <;> decide
  have hflaky : ∀ i, i + 1 < 2 →
      (sendStatus sampleLib sampleEnv (flaky i) sampleConfig).1 ≠ none := by
    intro i hi
    have h0 : i = 0 := by omega
    subst h0
    decide
  ⟨⟨by decide, by decide, hlate, by decide,
      (retry_stops_at_first_success sampleLib sampleEnv lateSuccess sampleConfig 4
        (by decide) (by decide) hlate (by decide)).1,
      (retry_stops_at_first_success sampleLib sampleEnv lateSuccess sampleConfig 4
        (by decide) (by decide) hlate (by decide)).2.1⟩,
   ⟨by decide, by decide, hflaky, by decide,
      (retry_stops_at_first_success sampleLib sampleEnv flaky sampleConfig 2
        (by decide) (by decide) hflaky (by decide)).1,
      (retry_stops_at_first_success sampleLib sampleEnv flaky sampleConfig 2
        (by decide) (by decide) hflaky (by decide)).2.1,
      (retry_stops_at_first_success sampleLib sampleEnv flaky sampleConfig 2
        (by decide) (by decide) hflaky (by decide)).2.2.1⟩⟩

/-- C7 (amended): when every invocation of `sendStatus` fails, the retry
loop of `main` invokes `sendStatus` exactly 4 times (the first attempt and
the 3 retries of `Times(3)`), sleeps 5 seconds before each of the 3 retries
(and warns with the attempt number), and the error it returns is the error
of the 4th, last invocation. -/
theorem retry_exhausted (L : GoLib) (env : Env) (W : Nat → World) (cfg : config)
    (hfail : ∀ i, i < 4 → (sendStatus L env (W i) cfg).1 ≠ none) :
    (main.retry L env W cfg Sys.start).2.sent = 4 ∧
    calls (main.retry L env W cfg Sys.start).2.trace = 4 ∧
    sleeps (main.retry L env W cfg Sys.start).2.trace =
      [5 * Second, 5 * Second, 5 * Second] ∧
    (main.retry L env W cfg Sys.start).1 = (sendStatus L env (W 3) cfg).1 ∧
    (main.retry L env W cfg Sys.start).1 ≠ none ∧
    (main.retry L env W cfg Sys.start).2.trace =
      Event.call :: (sendStatus L env (W 0) cfg).2 ++
      Event.sleep (5 * Second) :: Event.warnf "1 attempt failed" :: Event.call ::
        (sendStatus L env (W 1) cfg).2 ++
      Event.sleep (5 * Second) :: Event.warnf "2 attempt failed" :: Event.call ::
        (sendStatus L env (W 2) cfg).2 ++
      Event.sleep (5 * Second) :: Event.warnf "3 attempt failed" :: Event.call ::
        (sendStatus L env (W 3) cfg).2 := by
  rw [retry_all_fail L env W cfg hfail]
  have hc := trace_counts _ _ _ _ "1 attempt failed" "2 attempt failed" "3 attempt failed"
    (5 * Second) (sendStatus_quiet L env (W 0) cfg) (sendStatus_quiet L env (W 1) cfg)
    (sendStatus_quiet L env (W 2) cfg) (sendStatus_quiet L env (W 3) cfg)
  exact ⟨rfl, hc.1, hc.2, rfl, hfail 3 (by omega), rfl⟩

theorem retry_exhausted_witness :
    (∀ i, i < 4 →
      (sendStatus sampleLib sampleEnv ((fun _ => offline) i) sampleConfig).1 ≠ none) ∧
    (main.retry sampleLib sampleEnv (fun _ => offline) sampleConfig Sys.start).2.sent = 4 ∧
    sleeps (main.retry sampleLib sampleEnv (fun _ => offline) sampleConfig Sys.start).2.trace =
      [5 * Second, 5 * Second, 5 * Second] ∧
    (main.retry sampleLib sampleEnv (fun _ => offline) sampleConfig Sys.start).1 =
      (sendStatus sampleLib sampleEnv offline sampleConfig).1 :=
  have hfail : ∀ i, i < 4 →
      (sendStatus sampleLib sampleEnv ((fun _ => offline) i) sampleConfig).1 ≠ none := by
    intro i _
    show (sendStatus sampleLib sampleEnv offline sampleConfig).1 ≠ none
    decide
  ⟨hfail,
    (retry_exhausted sampleLib sampleEnv (fun _ => offline) sampleConfig hfail).1,
    (retry_exhausted sampleLib sampleEnv (fun _ => offline) sampleConfig hfail).2.2.1,
    (retry_exhausted sampleLib sampleEnv (fun _ => offline) sampleConfig hfail).2.2.2.1⟩

/-- C7 (as stated) fails: on a network where every request fails, each with
its own error, the retry loop of `main` invokes `sendStatus` 4 times, not 3,
sleeps 3 times, not 2, and returns the error of the 4th invocation, which
is not the error of the 3rd. -/
theorem retry_makes_four_attempts :
    (∀ i, (sendStatus sampleLib sampleEnv (failing i) sampleConfig).1 ≠ none) ∧
    (main.retry sampleLib sampleEnv failing sampleConfig Sys.start).2.sent = 4 ∧
    (main.retry sampleLib sampleEnv failing sampleConfig Sys.start).2.sent ≠ 3 ∧
    calls (main.retry sampleLib sampleEnv failing sampleConfig Sys.start).2.trace = 4 ∧
    sleeps (main.retry sampleLib sampleEnv failing sampleConfig Sys.start).2.trace =
      [5 * Second, 5 * Second, 5 * Second] ∧
    (main.retry sampleLib sampleEnv failing sampleConfig Sys.start).1 =
      some "failed to send the request: i/o timeout on request 4" ∧
    (sendStatus sampleLib sampleEnv (failing 2) sampleConfig).1 =
      some "failed to send the request: i/o timeout on request 3" ∧
    (main.retry sampleLib sampleEnv failing sampleConfig Sys.start).1 ≠
      (sendStatus sampleLib sampleEnv (failing 2) sampleConfig).1 := by
  have hfail : ∀ i, (sendStatus sampleLib sampleEnv (failing i) sampleConfig).1 ≠ none := by
    intro i
    rw [sendStatus_transport_error sampleLib sampleEnv (failing i) sampleConfig
      { Method := "POST", URL := concatURL sampleConfig, Header := [], Body := "" }
      ("i/o timeout on request " ++ toString (i + 1)) rfl rfl]
    simp
  have hkey := retry_all_fail sampleLib sampleEnv failing sampleConfig (fun i _ => hfail i)
  have hc := trace_counts _ _ _ _ "1 attempt failed" "2 attempt failed" "3 attempt failed"
    (5 * Second) (sendStatus_quiet sampleLib sampleEnv (failing 0) sampleConfig)
    (sendStatus_quiet sampleLib sampleEnv (failing 1) sampleConfig)
    (sendStatus_quiet sampleLib sampleEnv (failing 2) sampleConfig)
    (sendStatus_quiet sampleLib sampleEnv (failing 3) sampleConfig)
  have h4 : (sendStatus sampleLib sampleEnv (failing 3) sampleConfig).1 =
      some "failed to send the request: i/o timeout on request 4" := by decide
  have h3 : (sendStatus sampleLib sampleEnv (failing 2) sampleConfig).1 =
      some "failed to send the request: i/o timeout on request 3" := by decide
  rw [hkey]
  refine ⟨hfail, rfl, by decide, hc.1, hc.2, h4, h3, ?_⟩
  show (sendStatus sampleLib sampleEnv (failing 3) sampleConfig).1 ≠ _
  rw [h4, h3]
  decide

end GitlabStatus
